import Mathlib

/-!
Shallow embedding of `disk_objectstore/backup_utils.py` (backup orchestration
engine) and proofs of the specification claims about it.

Conventions of the embedding:
* `pathlib.Path` is modelled by `PathM`, a wrapper around the raw path string.
  Normalisation performed by the external `pathlib` library is not modelled;
  `Path.resolve()` is modelled as absolutisation against the process working
  directory.
* Python's `str.split(sep)` is embedded as `pySplit` over the string's
  character list, and Python's `sorted()` on strings as the stable insertion
  sort `pySorted` with the code-point lexicographic order `strLe`.
* Effectful functions are embedded as pure functions that also return the
  trace of external commands they issue; the success of each external
  command (a subprocess exit status) is supplied by explicit oracle
  parameters.
-/

namespace DiskObjectstore

/-- Model of `pathlib.Path`: the raw path string. -/
structure PathM where
  str : String
deriving DecidableEq, Repr

/-- `p / child` for paths (Python's `Path.__truediv__`). -/
def PathM.join (p : PathM) (child : String) : PathM :=
  ⟨p.str ++ "/" ++ child⟩

/-- A POSIX path is absolute when it starts with the separator. -/
def PathM.isAbsolute (p : PathM) : Bool :=
  p.str.data.head? == some '/'

/-- Model of `Path.resolve()`: make the path absolute against the current
working directory `cwd` (symlink and dot-segment normalisation of the
external `pathlib` library is not modelled). -/
def PathM.resolve (cwd : PathM) (p : PathM) : PathM :=
  if p.isAbsolute then p else cwd.join p.str

/-- Python truthiness of `self.remote : Optional[str]`: `None` and the empty
string are falsy. -/
def remoteTruthy : Option String → Bool
  | none => false
  | some s => !(s == "")

/-- Embedding of Python's `str.split(c)` over the character list: split at
every occurrence of `c`, keeping empty pieces. -/
def pySplit (c : Char) : List Char → List (List Char)
  | [] => [[]]
  | x :: xs =>
    if x = c then [] :: pySplit c xs
    else
      match pySplit c xs with
      | [] => [[x]]
      | r :: rs => (x :: r) :: rs

/-- `split_remote_and_path` (backup_utils.py lines 26-34): extract remote and
path from `<remote>:<path>`; more than one colon raises `ValueError`. -/
def split_remote_and_path (dest : String) : Except String (Option String × PathM) :=
  match pySplit ':' dest.data with
  | [_] => .ok (none, PathM.mk dest)
  | [r, p] => .ok (some (String.mk r), PathM.mk (String.mk p))
  | _ => .error "Invalid destination format: <remote>:<path>"

/-! ### Lemmas about `pySplit` -/

theorem pySplit_ne_nil (c : Char) (l : List Char) : pySplit c l ≠ [] := by
  cases l with
  | nil => simp [pySplit]
  | cons x xs =>
    simp only [pySplit]
    split
    · simp
    · split
      · simp
      · simp

theorem pySplit_length (c : Char) (l : List Char) :
    (pySplit c l).length = l.count c + 1 := by
  induction l with
  | nil => simp [pySplit]
  | cons x xs ih =>
    simp only [pySplit]
    by_cases hx : x = c
    · subst hx
      simp [List.count_cons, ih]
    · simp only [if_neg hx]
      cases h : pySplit c xs with
      | nil => exact absurd h (pySplit_ne_nil c xs)
      | cons r rs =>
        rw [h] at ih
        simp only [List.length_cons] at ih ⊢
        have hbe : (c == x) = false := beq_eq_false_iff_ne.mpr (Ne.symm hx)
        simp [List.count_cons, hbe, ih, hx]

theorem pySplit_of_count_zero (c : Char) (l : List Char) (h : l.count c = 0) :
    pySplit c l = [l] := by
  induction l with
  | nil => simp [pySplit]
  | cons x xs ih =>
    have hx : ¬ (x = c) := by
      intro he
      subst he
      simp [List.count_cons] at h
    have hxs : xs.count c = 0 := by
      simp only [List.count_cons] at h
      omega
    simp only [pySplit, if_neg hx, ih hxs]

theorem pySplit_append (c : Char) (a b : List Char) (ha : a.count c = 0) :
    pySplit c (a ++ c :: b) = a :: pySplit c b := by
  induction a with
  | nil => simp [pySplit]
  | cons x xs ih =>
    have hx : ¬ (x = c) := by
      intro he
      subst he
      simp [List.count_cons] at ha
    have hxs : xs.count c = 0 := by
      simp only [List.count_cons] at ha
      omega
    have hrec : pySplit c (xs ++ c :: b) = xs :: pySplit c b := ih hxs
    simp only [List.cons_append, pySplit, if_neg hx, List.append_eq, hrec]

theorem pySplit_singleton (c : Char) (l m : List Char) (h : pySplit c l = [m]) :
    l = m := by
  induction l generalizing m with
  | nil =>
    have h' : ([[]] : List (List Char)) = [m] := h
    simpa using h'
  | cons x xs ih =>
    simp only [pySplit] at h
    by_cases hx : x = c
    · rw [if_pos hx] at h
      have := pySplit_ne_nil c xs
      cases hr : pySplit c xs with
      | nil => exact absurd hr this
      | cons r rs => rw [hr] at h; simp at h
    · rw [if_neg hx] at h
      cases hr : pySplit c xs with
      | nil => exact absurd hr (pySplit_ne_nil c xs)
      | cons r rs =>
        rw [hr] at h
        simp only [List.cons.injEq] at h
        obtain ⟨hm, hrs⟩ := h
        subst hrs
        have := ih r (by rw [hr])
        subst this
        exact hm.symm ▸ rfl

theorem pySplit_pair (c : Char) (l a b : List Char) (h : pySplit c l = [a, b]) :
    l = a ++ c :: b := by
  induction l generalizing a b with
  | nil => simp [pySplit] at h
  | cons x xs ih =>
    simp only [pySplit] at h
    by_cases hx : x = c
    · rw [if_pos hx] at h
      simp only [List.cons.injEq] at h
      obtain ⟨ha, hxs⟩ := h
      subst ha
      have := pySplit_singleton c xs b hxs
      subst this
      simp [hx]
    · rw [if_neg hx] at h
      cases hr : pySplit c xs with
      | nil => exact absurd hr (pySplit_ne_nil c xs)
      | cons r rs =>
        rw [hr] at h
        simp only [List.cons.injEq] at h
        obtain ⟨ha, hrs⟩ := h
        subst ha
        have := ih r b (by rw [hr, hrs])
        rw [List.cons_append, this]

/-! ### Python string ordering and `sorted()` -/

/-- Code-point lexicographic strict order on character lists (Python's
string `<`). -/
def strLt : List Char → List Char → Bool
  | [], [] => false
  | [], _ :: _ => true
  | _ :: _, [] => false
  | x :: xs, y :: ys =>
    if x < y then true else if y < x then false else strLt xs ys

/-- Code-point lexicographic order on strings (Python's string `<=`),
the key order used by Python's `sorted()` on strings. -/
def strLe (a b : String) : Bool := a == b || strLt a.data b.data

/-- One insertion step of a stable insertion sort. -/
def insort (x : String) : List String → List String
  | [] => [x]
  | y :: ys => if strLe x y then x :: y :: ys else y :: insort x ys

/-- Model of Python's `sorted()` on a list of strings: a stable ascending
sort by the code-point lexicographic order. -/
def pySorted : List String → List String
  | [] => []
  | x :: xs => insort x (pySorted xs)

theorem string_data_eq : ∀ {a b : String}, a.data = b.data → a = b := by
  intro a b h
  cases a
  cases b
  exact congrArg String.mk h

theorem strLt_asymm : ∀ a b : List Char, strLt a b = true → strLt b a = false := by
  intro a
  induction a with
  | nil => intro b h; cases b <;> simp [strLt] at h ⊢
  | cons x xs ih =>
    intro b h
    cases b with
    | nil => simp [strLt] at h
    | cons y ys =>
      simp only [strLt] at h ⊢
      by_cases hxy : x < y
      · have hyx : ¬ y < x := lt_asymm hxy
        simp [hxy, hyx]
      · by_cases hyx : y < x
        · simp [hxy, hyx] at h
        · simp only [if_neg hxy, if_neg hyx] at h ⊢
          exact ih ys h

theorem strLt_eq_of_not : ∀ a b : List Char,
    strLt a b = false → strLt b a = false → a = b := by
  intro a
  induction a with
  | nil => intro b h1 _; cases b <;> simp [strLt] at h1 ⊢
  | cons x xs ih =>
    intro b h1 h2
    cases b with
    | nil => simp [strLt] at h2
    | cons y ys =>
      simp only [strLt] at h1 h2
      by_cases hxy : x < y
      · simp [hxy] at h1
      · by_cases hyx : y < x
        · simp [hyx, lt_asymm hyx] at h2
        · have hxy' : x = y := le_antisymm (not_lt.mp hyx) (not_lt.mp hxy)
          simp only [if_neg hxy, if_neg hyx] at h1 h2
          rw [hxy', ih ys h1 h2]

theorem strLt_trans : ∀ a b c : List Char,
    strLt a b = true → strLt b c = true → strLt a c = true := by
  intro a
  induction a with
  | nil =>
    intro b c h1 h2
    cases b with
    | nil => simp [strLt] at h1
    | cons y ys => cases c with
      | nil => simp [strLt] at h2
      | cons z zs => simp [strLt]
  | cons x xs ih =>
    intro b c h1 h2
    cases b with
    | nil => simp [strLt] at h1
    | cons y ys =>
      cases c with
      | nil => simp [strLt] at h2
      | cons z zs =>
        simp only [strLt] at h1 h2 ⊢
        by_cases hxy : x < y
        · by_cases hyz : y < z
          · simp [lt_trans hxy hyz]
          · by_cases hzy : z < y
            · simp [hyz, hzy] at h2
            · have : y = z := le_antisymm (not_lt.mp hzy) (not_lt.mp hyz)
              subst this
              simp [hxy]
        · by_cases hyx : y < x
          · simp [hxy, hyx] at h1
          · have hxy' : x = y := le_antisymm (not_lt.mp hyx) (not_lt.mp hxy)
            subst hxy'
            simp only [if_neg hxy, if_neg hyx] at h1
            by_cases hyz : x < z
            · simp [hyz]
            · by_cases hzy : z < x
              · simp [hyz, hzy] at h2
              · simp only [if_neg hyz, if_neg hzy] at h2 ⊢
                exact ih ys zs h1 h2

theorem strLe_refl (a : String) : strLe a a = true := by
  simp [strLe]

theorem strLe_total (a b : String) : strLe a b = true ∨ strLe b a = true := by
  by_cases h1 : strLt a.data b.data = true
  · left; simp [strLe, h1]
  · by_cases h2 : strLt b.data a.data = true
    · right; simp [strLe, h2]
    · left
      have := strLt_eq_of_not a.data b.data
        (Bool.not_eq_true _ ▸ h1) (Bool.not_eq_true _ ▸ h2)
      have hab : a = b := string_data_eq this
      simp [strLe, hab]

theorem strLe_of_not (a b : String) (h : strLe a b = false) : strLe b a = true := by
  rcases strLe_total a b with h' | h'
  · rw [h] at h'; cases h'
  · exact h'

theorem strLe_trans (a b c : String)
    (h1 : strLe a b = true) (h2 : strLe b c = true) : strLe a c = true := by
  simp only [strLe, Bool.or_eq_true, beq_iff_eq] at h1 h2 ⊢
  rcases h1 with h1 | h1
  · subst h1; exact h2
  · rcases h2 with h2 | h2
    · subst h2; right; exact h1
    · right; exact strLt_trans _ _ _ h1 h2

theorem strLe_antisymm (a b : String)
    (h1 : strLe a b = true) (h2 : strLe b a = true) : a = b := by
  simp only [strLe, Bool.or_eq_true, beq_iff_eq] at h1 h2
  rcases h1 with h1 | h1
  · exact h1
  · rcases h2 with h2 | h2
    · exact h2.symm
    · have := strLt_asymm _ _ h1
      rw [this] at h2
      cases h2

/-! ### Permutation and sortedness of `pySorted` -/

theorem insort_perm (x : String) (l : List String) :
    List.Perm (insort x l) (x :: l) := by
  induction l with
  | nil => simp [insort]
  | cons y ys ih =>
    simp only [insort]
    split
    · exact List.Perm.refl _
    · exact (List.Perm.cons y ih).trans (List.Perm.swap x y ys)

theorem pySorted_perm (l : List String) : List.Perm (pySorted l) l := by
  induction l with
  | nil => simp [pySorted]
  | cons x xs ih =>
    exact (insort_perm x (pySorted xs)).trans (List.Perm.cons x ih)

theorem mem_pySorted (a : String) (l : List String) :
    a ∈ pySorted l ↔ a ∈ l :=
  (pySorted_perm l).mem_iff

theorem length_pySorted (l : List String) :
    (pySorted l).length = l.length :=
  (pySorted_perm l).length_eq

theorem insort_pairwise (x : String) (l : List String)
    (h : List.Pairwise (fun a b => strLe a b = true) l) :
    List.Pairwise (fun a b => strLe a b = true) (insort x l) := by
  induction l with
  | nil => simp [insort]
  | cons y ys ih =>
    rcases List.pairwise_cons.mp h with ⟨hy, hys⟩
    simp only [insort]
    by_cases hxy : strLe x y = true
    · rw [if_pos hxy]
      refine List.pairwise_cons.mpr ⟨?_, h⟩
      intro b hb
      rcases List.mem_cons.mp hb with rfl | hb
      · exact hxy
      · exact strLe_trans _ _ _ hxy (hy b hb)
    · rw [if_neg hxy]
      refine List.pairwise_cons.mpr ⟨?_, ih hys⟩
      intro b hb
      have hb' : b ∈ x :: ys := (insort_perm x ys).mem_iff.mp hb
      rcases List.mem_cons.mp hb' with rfl | hb'
      · exact strLe_of_not _ _ (Bool.not_eq_true _ ▸ hxy)
      · exact hy b hb'

theorem pySorted_sorted (l : List String) :
    List.Pairwise (fun a b => strLe a b = true) (pySorted l) := by
  induction l with
  | nil => simp [pySorted]
  | cons x xs ih => exact insort_pairwise x (pySorted xs) ih

theorem pySorted_nodup (l : List String) (h : l.Nodup) :
    (pySorted l).Nodup :=
  ((pySorted_perm l).nodup_iff).mpr h

/-! ### DestinationManager folder bookkeeping -/

/-- `get_last_backup_folder` (backup_utils.py lines 215-218), taking as input
the folder list produced by `get_existing_backup_folders` (the lines printed
by the `find` command): `Path(sorted(existing_backups)[-1]) if existing_backups
else None`. -/
def get_last_backup_folder (folders : List String) : Option PathM :=
  if folders = [] then none
  else ((pySorted folders).getLast?).map PathM.mk

/-- The folders selected for deletion by `delete_old_backups` (backup_utils.py
lines 220-223): `sorted_folders[: -(self.keep + 1)]`, i.e. all but the last
`keep + 1` entries of the ascending sort (Python's negative-index slice
saturates at the empty list, as `Nat` subtraction does here). -/
def delete_old_backups_targets (keep : Nat) (folders : List String) : List String :=
  let sorted_folders := pySorted folders
  sorted_folders.take (sorted_folders.length - (keep + 1))

/-- Effect of `delete_old_backups` (backup_utils.py lines 220-229) on the
destination's set of backup folders: each selected folder is removed when its
`rm -rf` succeeds (`rmOk`); a failed deletion is only a warning and does not
abort the remaining deletions. -/
def delete_old_backups_state (keep : Nat) (rmOk : String → Bool)
    (folders : List String) : List String :=
  let targets := delete_old_backups_targets keep folders
  folders.filter (fun f => !(targets.contains f && rmOk f))

theorem targets_length (keep : Nat) (folders : List String) :
    (delete_old_backups_targets keep folders).length
      = folders.length - (keep + 1) := by
  simp [delete_old_backups_targets, List.length_take, length_pySorted]

theorem targets_max_not_mem (keep : Nat) (folders : List String)
    (hnd : folders.Nodup) (f : String) (hf : f ∈ folders)
    (hmax : ∀ g ∈ folders, strLe g f = true) :
    f ∉ delete_old_backups_targets keep folders := by
  intro hmem
  have hmem' : f ∈ (pySorted folders).take
      ((pySorted folders).length - (keep + 1)) := hmem
  have hsplit := List.take_append_drop
    ((pySorted folders).length - (keep + 1)) (pySorted folders)
  have hpw := pySorted_sorted folders
  have hnd' := pySorted_nodup folders hnd
  rw [← hsplit] at hpw hnd'
  have hfs : f ∈ pySorted folders := (mem_pySorted f folders).mpr hf
  have hlen1 : 1 ≤ (pySorted folders).length :=
    List.length_pos.mpr (List.ne_nil_of_mem hfs)
  have hdropne : (pySorted folders).drop
      ((pySorted folders).length - (keep + 1)) ≠ [] := by
    intro hnil
    have := List.drop_eq_nil_iff.mp hnil
    omega
  obtain ⟨g, hg⟩ := List.exists_mem_of_ne_nil _ hdropne
  have hfg : strLe f g = true :=
    (List.pairwise_append.mp hpw).2.2 f hmem' g hg
  have hgfolders : g ∈ folders :=
    (mem_pySorted g folders).mp (List.drop_subset _ _ hg)
  have hgf : strLe g f = true := hmax g hgfolders
  have : f = g := strLe_antisymm f g hfg hgf
  subst this
  exact (List.nodup_append.mp hnd').2.2 hmem' hg

theorem targets_nil_of_small (keep : Nat) (folders : List String)
    (h : folders.length ≤ keep + 1) :
    delete_old_backups_targets keep folders = [] := by
  have h' : (pySorted folders).length - (keep + 1) = 0 := by
    rw [length_pySorted]
    omega
  simp [delete_old_backups_targets, h']

/-! ### BackupManager construction and `call_rsync` -/

/-- A command dispatched through `run_cmd` during `BackupManager.__init__`.
Only `mkdir` mutates the destination; `sshCheck` (the `ssh <remote> exit`
probe) and `checkPathExists` (`[ -e <path> ]`) are read-only. -/
inductive InitCmd where
  | sshCheck (remote : String)
  | checkPathExists (p : String)
  | mkdir (p : String)
deriving DecidableEq, Repr

/-- The state held by a constructed `BackupManager` (backup_utils.py
lines 49-68). -/
structure BackupManager where
  dest : String
  keep : Int
  remote : Option String
  path : PathM
  exes : List (String × String)
deriving DecidableEq, Repr

/-- `BackupManager.__init__` (backup_utils.py lines 49-90), embedded as a
function from the constructor inputs and the outcomes of the external probes
to the trace of dispatched commands and either an error or the constructed
manager. `remoteAccessible` is the exit status of the `ssh <remote> exit`
probe, `exeFound p` models `shutil.which(p) is not None`, `pathExists` the
`[ -e <path> ]` probe, and `mkdirOk` the `mkdir` exit status. A Python
`dict` preserves insertion order, so the executable registry is an
association list; `rsync` is appended when absent (lines 66-68) before any
validation. `if self.remote:` uses Python truthiness, so an empty remote
string skips the ssh check. -/
def backupManagerInit (dest : String) (keep : Int)
    (exes : Option (List (String × String)))
    (remoteAccessible : Bool) (exeFound : String → Bool)
    (pathExists : Bool) (mkdirOk : Bool) :
    List InitCmd × Except String BackupManager :=
  match split_remote_and_path dest with
  | .error e => ([], .error e)
  | .ok (remote, path) =>
    let exes0 := exes.getD []
    let exes1 := if (exes0.lookup "rsync").isSome then exes0
      else exes0 ++ [("rsync", "rsync")]
    if keep < 0 then
      ([], .error "Input validation failed: keep variable cannot be negative!")
    else
      let sshTrace := if remoteTruthy remote then
          [InitCmd.sshCheck (remote.getD "")] else []
      if remoteTruthy remote && !remoteAccessible then
        (sshTrace, .error "Remote is not accessible!")
      else
        match exes1.find? (fun kv => !exeFound kv.2) with
        | some kv =>
          (sshTrace, .error ("Input validation failed: " ++ kv.2 ++ " not accessible."))
        | none =>
          let mgr : BackupManager := ⟨dest, keep, remote, path, exes1⟩
          if pathExists then
            (sshTrace ++ [InitCmd.checkPathExists path.str], .ok mgr)
          else if mkdirOk then
            (sshTrace ++ [InitCmd.checkPathExists path.str, InitCmd.mkdir path.str],
              .ok mgr)
          else
            (sshTrace ++ [InitCmd.checkPathExists path.str, InitCmd.mkdir path.str],
              .error "Input validation failed: could not access or create path")

/-- Argument list built by `call_rsync` (backup_utils.py lines 127-176);
returns `none` exactly when the `assert "rsync" in self.exes` at the top of
the function (line 151) fails. `cwd` is the process working directory, used
to model `Path.resolve()`. An empty `extra_args` list models Python's falsy
`None`/`[]` (both leave the argument list unchanged). -/
def call_rsync_args (exes : List (String × String)) (remote : Option String)
    (cwd : PathM) (src dest : PathM) (link_dest : Option PathM)
    (src_trailing_slash dest_trailing_slash : Bool)
    (extra_args : List String) : Option (List String) :=
  match exes.lookup "rsync" with
  | none => none
  | some rsyncExe =>
    let all_args := [rsyncExe, "-azh", "-vv", "--no-whole-file"]
    let all_args := all_args ++ extra_args
    let all_args := all_args ++
      (match link_dest with
       | none => []
       | some ld =>
         let ld := if remoteTruthy remote = false then PathM.resolve cwd ld else ld
         ["--link-dest=" ++ ld.str])
    let all_args := all_args ++
      [if src_trailing_slash then src.str ++ "/" else src.str]
    let dest_str := dest.str ++ (if dest_trailing_slash then "/" else "")
    some (all_args ++
      [if remoteTruthy remote then (remote.getD "") ++ ":" ++ dest_str else dest_str])

theorem lookup_append_self (l : List (String × String)) (v : String) :
    ((l ++ [("rsync", v)]).lookup "rsync").isSome := by
  induction l with
  | nil => simp [List.lookup]
  | cons kv t ih =>
    rw [List.cons_append, List.lookup]
    cases h : ("rsync" : String) == kv.1 with
    | true => simp
    | false => simp [ih]

/-- After the insertion at lines 66-68, the executable registry always
contains a `rsync` entry. -/
theorem lookup_rsync_after_insert (l : List (String × String)) :
    (((if (l.lookup "rsync").isSome then l
       else l ++ [("rsync", "rsync")]).lookup "rsync")).isSome := by
  by_cases h : (l.lookup "rsync").isSome
  · rw [if_pos h]; exact h
  · rw [if_neg h]; exact lookup_append_self l "rsync"

/-! ### The backup cycle: `backup_auto_folders` -/

/-- A step of one backup cycle, at the granularity needed for the
orchestration claims. `producerCall` marks the invocation of the supplied
`backup_func`; the other constructors are the external commands dispatched
through `run_cmd`. -/
inductive CycleStep where
  | producerCall (live : PathM) (prev : Option PathM)
  | mvCmd (src dst : String)
  | lnCmd (target link : String)
  | rmCmd (folder : String)
deriving DecidableEq, Repr

/-- `backup_auto_folders` (backup_utils.py lines 231-291), embedded over the
destination's current set of backup folders (`folders`: the full path strings
that the `find` in `get_existing_backup_folders` prints). `producerOk`
models whether `backup_func` returns normally or raises; `mvOk` and `lnOk`
are the exit statuses of the `mv` and `ln -sfn` commands; `rmOk` the
per-folder `rm -rf` status inside `delete_old_backups`; `folder_name` the
generated `backup_<timestamp>_<randstr>` name. The result is the trace of
steps, the final set of backup folders at the destination, and the overall
outcome. The `ln` exit status only selects a log message (lines 284-289),
so `lnOk` does not influence control flow. -/
def backup_auto_folders (path : PathM) (keep : Nat) (folders : List String)
    (producerOk : Bool) (mvOk : Bool) (lnOk : Bool) (rmOk : String → Bool)
    (folder_name : String) :
    List CycleStep × List String × Except String Unit :=
  let live_folder := path.join "live-backup"
  let last_folder := get_last_backup_folder folders
  let producerStep := CycleStep.producerCall live_folder last_folder
  if ¬ producerOk then
    ([producerStep], folders, .error "backup function raised")
  else
    let new_folder := (path.join folder_name).str
    let mvStep := CycleStep.mvCmd live_folder.str new_folder
    if ¬ mvOk then
      ([producerStep, mvStep], folders, .error "Failed to move live-backup")
    else
      let folders1 := folders ++ [new_folder]
      let lnStep := CycleStep.lnCmd folder_name (path.join "last-backup").str
      let _ := lnOk
      let rmSteps := (delete_old_backups_targets keep folders1).map CycleStep.rmCmd
      ([producerStep, mvStep, lnStep] ++ rmSteps,
        delete_old_backups_state keep rmOk folders1, .ok ())

/-! ### The container backup producer: `backup_container` -/

/-- Modelled from the spec: the container's folder accessors
(`container.get_folder`, `_get_loose_folder`, `_get_pack_folder`,
`_get_pack_index_path` live in `container.py`, which is not among the
sources). Per the spec the store has three logical regions under a single
root — loose entries, packed entries and the mutable sqlite index — with
the loose and packed regions at subpaths of the root, so that
`Path.relative_to(root)` yields their relative names. -/
structure Container where
  root : PathM
  looseRel : String
  packsRel : String
  sqlitePath : PathM
deriving DecidableEq, Repr

def Container.loosePath (c : Container) : PathM := c.root.join c.looseRel

def Container.packsPath (c : Container) : PathM := c.root.join c.packsRel

/-- A transfer-level operation performed by `backup_container`: a
`call_rsync` invocation (with the arguments supplied at the call site) or
the sqlite online-backup dump (`_sqlite_backup`, backup_utils.py
lines 294-304, which goes through the sqlite connection backup API and
never copies the raw, possibly concurrently-written file). -/
inductive TransferOp where
  | rsync (src dest : PathM) (link_dest : Option PathM)
      (src_trailing_slash : Bool) (extra_args : List String)
  | sqliteBackup (src dst : PathM)
deriving DecidableEq, Repr

/-- `backup_container` (backup_utils.py lines 307-371), embedded as the trace
of transfer operations it performs. `tempDir` models the transient local
`tempfile.TemporaryDirectory()`; `rsyncOk i` is the exit status of the i-th
`call_rsync` invocation, and `sqliteFileCreated` the
`sqlite_temp_loc.is_file()` check after the dump (line 343); a failing
step raises `BackupError` and nothing further runs. -/
def backup_container (c : Container) (path : PathM) (prev_backup : Option PathM)
    (tempDir : PathM) (rsyncOk : Nat → Bool) (sqliteFileCreated : Bool) :
    List TransferOp × Except String Unit :=
  let loose_path := c.loosePath
  let packs_path := c.packsPath
  let sqlite_path := c.sqlitePath
  -- step 1: back up loose files
  let loose_path_rel := c.looseRel
  let prev_backup_loose := prev_backup.map (fun p => p.join loose_path_rel)
  let op1 := TransferOp.rsync loose_path path prev_backup_loose false []
  if ¬ rsyncOk 0 then ([op1], .error "rsync failed") else
  -- step 2: dump the sqlite db into a local temporary directory
  let sqlite_temp_loc := tempDir.join "packs.idx"
  let op2 := TransferOp.sqliteBackup sqlite_path sqlite_temp_loc
  if ¬ sqliteFileCreated then
    ([op1, op2], .error "sqlite temp file failed to be created") else
  -- step 3: transfer the sqlite database file
  let op3 := TransferOp.rsync sqlite_temp_loc path prev_backup false []
  if ¬ rsyncOk 1 then ([op1, op2, op3], .error "rsync failed") else
  -- step 4: transfer the packed files
  let op4 := TransferOp.rsync packs_path path prev_backup false []
  if ¬ rsyncOk 2 then ([op1, op2, op3, op4], .error "rsync failed") else
  -- step 5: transfer anything else in the container folder
  let op5 := TransferOp.rsync c.root path prev_backup true
    ["--exclude", loose_path_rel, "--exclude", "packs.idx", "--exclude", c.packsRel]
  if ¬ rsyncOk 3 then ([op1, op2, op3, op4, op5], .error "rsync failed")
  else ([op1, op2, op3, op4, op5], .ok ())

/-! ### Remaining helper lemmas -/

theorem resolve_isAbsolute (cwd p : PathM) (h : cwd.isAbsolute = true) :
    (PathM.resolve cwd p).isAbsolute = true := by
  unfold PathM.resolve
  split
  · assumption
  · have h' : cwd.str.data.head? = some '/' := by
      simpa [PathM.isAbsolute] using h
    simp [PathM.isAbsolute, PathM.join, String.data_append, List.head?_append, h']

theorem pySplit_pair_counts (c : Char) (l a b : List Char)
    (h : pySplit c l = [a, b]) : a.count c = 0 ∧ b.count c = 0 := by
  have hlen := pySplit_length c l
  rw [h] at hlen
  have hcount : l.count c = 1 := by simpa using hlen.symm
  have hl := pySplit_pair c l a b h
  rw [hl] at hcount
  simp [List.count_append, List.count_cons] at hcount
  omega

/-! ### Claims -/

/-- C4: a destination string with no separator parses to (absent host, the
whole string as path); with exactly one separator it parses to (the part
before as host, the part after as path); with two or more separators,
parsing raises `ValueError`. -/
theorem C4_split_remote_and_path (dest : String) :
    (dest.data.count ':' = 0 →
      split_remote_and_path dest = .ok (none, PathM.mk dest)) ∧
    (∀ a b : List Char, dest.data = a ++ ':' :: b →
      a.count ':' = 0 → b.count ':' = 0 →
      split_remote_and_path dest
        = .ok (some (String.mk a), PathM.mk (String.mk b))) ∧
    (2 ≤ dest.data.count ':' → ∃ e, split_remote_and_path dest = .error e) := by
  refine ⟨?_, ?_, ?_⟩
  · intro h
    simp [split_remote_and_path, pySplit_of_count_zero ':' dest.data h]
  · intro a b hdest ha hb
    have h1 : pySplit ':' dest.data = [a, b] := by
      rw [hdest, pySplit_append ':' a b ha, pySplit_of_count_zero ':' b hb]
    simp [split_remote_and_path, h1]
  · intro h
    have hlen : 3 ≤ (pySplit ':' dest.data).length := by
      rw [pySplit_length]
      omega
    rcases hsp : pySplit ':' dest.data with _ | ⟨x, _ | ⟨y, _ | ⟨z, rest⟩⟩⟩
    · rw [hsp] at hlen; simp at hlen
    · rw [hsp] at hlen; simp at hlen
    · rw [hsp] at hlen; simp at hlen
    · refine ⟨"Invalid destination format: <remote>:<path>", ?_⟩
      simp [split_remote_and_path, hsp]

/-- Witness for C4 at concrete inputs: `"destpath"`, `"host:data"` and
`"a:b:c"`. -/
theorem C4_split_remote_and_path_witness :
    split_remote_and_path "destpath" = .ok (none, PathM.mk "destpath") ∧
    split_remote_and_path "host:data"
      = .ok (some (String.mk "host".data), PathM.mk (String.mk "data".data)) ∧
    ∃ e, split_remote_and_path "a:b:c" = .error e :=
  ⟨(C4_split_remote_and_path "destpath").1 (by decide),
   (C4_split_remote_and_path "host:data").2.1 "host".data "data".data
     (by decide) (by decide) (by decide),
   (C4_split_remote_and_path "a:b:c").2.2 (by decide)⟩

/-- The invariant claimed by the spec for a parsed destination: the remote
host is either absent or a non-empty host identifier (stated from the
spec's words, to be compared with `split_remote_and_path`). -/
def remoteHostInvariant (res : Option String × PathM) : Prop :=
  res.1 = none ∨ ∃ s, res.1 = some s ∧ s ≠ ""

/-- C5 counterexample: the destination `":x"` is accepted by the parser but
yields the present-and-empty remote host `some ""`, so the claimed invariant
fails. -/
theorem C5_remote_invariant_counterexample :
    split_remote_and_path ":x" = .ok (some "", PathM.mk "x") ∧
    ¬ remoteHostInvariant (some "", PathM.mk "x") := by
  constructor
  · rfl
  · rintro (h | ⟨s, hs, hne⟩)
    · cases h
    · cases hs
      exact hne rfl

/-- C5 amended: for every destination the parser accepts with a present
remote host, the host is exactly the (possibly empty) text before the single
separator and the path is the text after it; the host is empty precisely
when the destination string begins with the separator. The path component
is always present. -/
theorem C5_remote_invariant_amended (dest : String) (r : String) (p : PathM)
    (h : split_remote_and_path dest = .ok (some r, p)) :
    dest.data = r.data ++ ':' :: p.str.data ∧
    (r = "" ↔ dest.data.head? = some ':') := by
  unfold split_remote_and_path at h
  rcases hsp : pySplit ':' dest.data with _ | ⟨a, _ | ⟨b, _ | ⟨z, rest⟩⟩⟩
  · exact absurd hsp (pySplit_ne_nil ':' dest.data)
  · rw [hsp] at h
    simp at h
  · rw [hsp] at h
    simp only [Except.ok.injEq, Prod.mk.injEq, Option.some.injEq] at h
    obtain ⟨hr, hp⟩ := h
    have hdec := pySplit_pair ':' dest.data a b hsp
    have hcounts := pySplit_pair_counts ':' dest.data a b hsp
    subst hr
    subst hp
    constructor
    · exact hdec
    · constructor
      · intro hre
        have ha : a = [] := by
          have : (String.mk a).data = ("" : String).data := by rw [hre]
          simpa using this
        subst ha
        rw [hdec]
        rfl
      · intro hhead
        cases a with
        | nil => rfl
        | cons x t =>
          rw [hdec] at hhead
          simp only [List.cons_append, List.head?_cons, Option.some.injEq] at hhead
          subst hhead
          simp [List.count_cons] at hcounts
  · rw [hsp] at h
    simp at h

/-- Witness for C5's amended theorem at the concrete input `"host:p"`. -/
theorem C5_remote_invariant_amended_witness :
    "host:p".data = "host".data ++ ':' :: (PathM.mk "p").str.data ∧
    (("host" : String) = "" ↔ "host:p".data.head? = some ':') :=
  C5_remote_invariant_amended "host:p" "host" (PathM.mk "p") (by rfl)

/-- C2: `delete_old_backups` sorts the folder names ascending and selects
for deletion exactly the prefix of all but the last `keep + 1` entries: the
sorted list is the selected prefix followed by a retained suffix of exactly
`min (keep + 1) n` entries, the lexicographically greatest folder is never
selected, and nothing is selected when at most `keep + 1` folders exist. -/
theorem C2_delete_old_backups (keep : Nat) (folders : List String) :
    (∃ kept, pySorted folders = delete_old_backups_targets keep folders ++ kept
       ∧ kept.length = min (keep + 1) folders.length) ∧
    (folders.Nodup → ∀ f ∈ folders, (∀ g ∈ folders, strLe g f = true) →
       f ∉ delete_old_backups_targets keep folders) ∧
    (folders.length ≤ keep + 1 → delete_old_backups_targets keep folders = []) := by
  refine ⟨?_, ?_, targets_nil_of_small keep folders⟩
  · refine ⟨(pySorted folders).drop ((pySorted folders).length - (keep + 1)),
      (List.take_append_drop _ _).symm, ?_⟩
    rw [List.length_drop, length_pySorted]
    omega
  · intro hnd f hf hmax
    exact targets_max_not_mem keep folders hnd f hf hmax

/-- C2 counterexample: with `keep = 1` and the five folders
`backup_00000000000001_aa` .. `backup_00000000000005_ee`, the code selects
for deletion all but the last `keep + 1 = 2` of the ascending sort — the
THREE oldest folders — not the two oldest as the claim's concrete scenario
states. -/
theorem C2_delete_old_backups_counterexample :
    delete_old_backups_targets 1
        ["backup_00000000000001_aa", "backup_00000000000002_bb",
         "backup_00000000000003_cc", "backup_00000000000004_dd",
         "backup_00000000000005_ee"]
      = ["backup_00000000000001_aa", "backup_00000000000002_bb",
         "backup_00000000000003_cc"] ∧
    delete_old_backups_targets 1
        ["backup_00000000000001_aa", "backup_00000000000002_bb",
         "backup_00000000000003_cc", "backup_00000000000004_dd",
         "backup_00000000000005_ee"]
      ≠ ["backup_00000000000001_aa", "backup_00000000000002_bb"] := by
  constructor
  · decide
  · decide

/-- Witness for C2 (amended) at the concrete scenario: `keep = 1` and the
five folders `backup_00000000000001_aa` .. `backup_00000000000005_ee`; the
three oldest are selected for deletion and the most recent one never is. -/
theorem C2_delete_old_backups_witness :
    delete_old_backups_targets 1
        ["backup_00000000000001_aa", "backup_00000000000002_bb",
         "backup_00000000000003_cc", "backup_00000000000004_dd",
         "backup_00000000000005_ee"]
      = ["backup_00000000000001_aa", "backup_00000000000002_bb",
         "backup_00000000000003_cc"] ∧
    "backup_00000000000005_ee" ∉ delete_old_backups_targets 1
        ["backup_00000000000001_aa", "backup_00000000000002_bb",
         "backup_00000000000003_cc", "backup_00000000000004_dd",
         "backup_00000000000005_ee"] := by
  refine ⟨by decide, ?_⟩
  exact (C2_delete_old_backups 1
      ["backup_00000000000001_aa", "backup_00000000000002_bb",
       "backup_00000000000003_cc", "backup_00000000000004_dd",
       "backup_00000000000005_ee"]).2.1 (by decide)
    "backup_00000000000005_ee" (by decide) (by decide)

/-- C9: `get_last_backup_folder` returns `None` exactly when no backup
folders exist, and otherwise the lexicographic maximum of the folders
enumerated by `get_existing_backup_folders`. -/
theorem C9_get_last_backup_folder (folders : List String) :
    (get_last_backup_folder folders = none ↔ folders = []) ∧
    (∀ m : String, get_last_backup_folder folders = some (PathM.mk m) →
      m ∈ folders ∧ ∀ f ∈ folders, strLe f m = true) := by
  by_cases hnil : folders = []
  · subst hnil
    refine ⟨by simp [get_last_backup_folder], ?_⟩
    intro m hm
    simp [get_last_backup_folder] at hm
  · have hsne : pySorted folders ≠ [] := by
      intro h
      have := length_pySorted folders
      rw [h] at this
      exact hnil (List.eq_nil_of_length_eq_zero this.symm)
    have hlast : (pySorted folders).getLast? = some ((pySorted folders).getLast hsne) :=
      List.getLast?_eq_getLast _ hsne
    have hval : get_last_backup_folder folders
        = some (PathM.mk ((pySorted folders).getLast hsne)) := by
      simp [get_last_backup_folder, hnil, hlast]
    refine ⟨?_, ?_⟩
    · rw [hval]
      simp [hnil]
    · intro m hm
      rw [hval] at hm
      simp only [Option.some.injEq, PathM.mk.injEq] at hm
      subst hm
      constructor
      · exact (mem_pySorted _ folders).mp (List.getLast_mem hsne)
      · intro f hf
        have hfs : f ∈ pySorted folders := (mem_pySorted f folders).mpr hf
        have hdecomp := List.dropLast_append_getLast hsne
        have hpw := pySorted_sorted folders
        rw [← hdecomp] at hpw hfs
        rcases List.mem_append.mp hfs with hfd | hfl
        · exact (List.pairwise_append.mp hpw).2.2 f hfd _ (List.mem_singleton_self _)
        · rw [List.mem_singleton.mp hfl]
          exact strLe_refl _

/-- Witness for C9 at a concrete folder list. -/
theorem C9_get_last_backup_folder_witness :
    get_last_backup_folder ["backup_2_b", "backup_3_c", "backup_1_a"]
      = some (PathM.mk "backup_3_c") ∧
    "backup_3_c" ∈ ["backup_2_b", "backup_3_c", "backup_1_a"] ∧
    ∀ f ∈ ["backup_2_b", "backup_3_c", "backup_1_a"], strLe f "backup_3_c" = true := by
  refine ⟨by decide, ?_⟩
  exact (C9_get_last_backup_folder ["backup_2_b", "backup_3_c", "backup_1_a"]).2
    "backup_3_c" (by decide)

/-- C3: when the producer raises during the Produce step, the error
propagates, no promotion (`mv`) is attempted, and the destination's set of
backup folders is unchanged. -/
theorem C3_producer_failure_aborts (path : PathM) (keep : Nat)
    (folders : List String) (mvOk lnOk : Bool) (rmOk : String → Bool)
    (folder_name : String) :
    (backup_auto_folders path keep folders false mvOk lnOk rmOk folder_name).2.1
      = folders ∧
    (∀ s d, CycleStep.mvCmd s d
      ∉ (backup_auto_folders path keep folders false mvOk lnOk rmOk folder_name).1) ∧
    (∃ e, (backup_auto_folders path keep folders false mvOk lnOk rmOk folder_name).2.2
      = .error e) := by
  refine ⟨rfl, ?_, ⟨"backup function raised", rfl⟩⟩
  intro s d hmem
  simp [backup_auto_folders] at hmem

/-- C8: in every cycle whose promotion (`mv`) succeeds, retention pruning
runs and the cycle succeeds, with identical trace and final state whether
the latest-link update succeeded or failed. -/
theorem C8_prune_after_promotion (path : PathM) (keep : Nat)
    (folders : List String) (lnOk : Bool) (rmOk : String → Bool)
    (folder_name : String) :
    (backup_auto_folders path keep folders true true lnOk rmOk folder_name).2.2
      = .ok () ∧
    backup_auto_folders path keep folders true true lnOk rmOk folder_name
      = backup_auto_folders path keep folders true true true rmOk folder_name ∧
    (backup_auto_folders path keep folders true true lnOk rmOk folder_name).1
      = [CycleStep.producerCall (path.join "live-backup")
           (get_last_backup_folder folders),
         CycleStep.mvCmd (path.join "live-backup").str (path.join folder_name).str,
         CycleStep.lnCmd folder_name (path.join "last-backup").str]
        ++ (delete_old_backups_targets keep
             (folders ++ [(path.join folder_name).str])).map CycleStep.rmCmd :=
  ⟨rfl, rfl, rfl⟩

/-- C1: when every external step succeeds, `backup_container` performs, in
this exact order: the loose region (link-reference = the previous backup's
loose subpath when a previous backup exists, none otherwise), the sqlite
online-backup snapshot into a transient local location followed by its
transfer with link-reference = the previous backup root, the packed region
with link-reference = the previous backup root, and finally the remaining
top-level metadata with copy-contents semantics and explicit excludes for
the three regions already handled. -/
theorem C1_backup_container_order (c : Container) (path : PathM)
    (prev_backup : Option PathM) (tempDir : PathM) (rsyncOk : Nat → Bool)
    (hok : ∀ i, rsyncOk i = true) :
    backup_container c path prev_backup tempDir rsyncOk true
      = ([TransferOp.rsync c.loosePath path
            (prev_backup.map (fun p => p.join c.looseRel)) false [],
          TransferOp.sqliteBackup c.sqlitePath (tempDir.join "packs.idx"),
          TransferOp.rsync (tempDir.join "packs.idx") path prev_backup false [],
          TransferOp.rsync c.packsPath path prev_backup false [],
          TransferOp.rsync c.root path prev_backup true
            ["--exclude", c.looseRel, "--exclude", "packs.idx",
             "--exclude", c.packsRel]],
         .ok ()) := by
  simp [backup_container, hok 0, hok 1, hok 2, hok 3]

/-- Witness for C1 at a concrete container, staging path and previous
backup, with every external step succeeding. -/
theorem C1_backup_container_order_witness :
    backup_container ⟨⟨"/c"⟩, "loose", "packs", ⟨"/c/packs.idx"⟩⟩
        ⟨"/d/live-backup"⟩ (some ⟨"/d/prev"⟩) ⟨"/tmp/t"⟩ (fun _ => true) true
      = ([TransferOp.rsync ⟨"/c/loose"⟩ ⟨"/d/live-backup"⟩
            (some ⟨"/d/prev/loose"⟩) false [],
          TransferOp.sqliteBackup ⟨"/c/packs.idx"⟩ ⟨"/tmp/t/packs.idx"⟩,
          TransferOp.rsync ⟨"/tmp/t/packs.idx"⟩ ⟨"/d/live-backup"⟩
            (some ⟨"/d/prev"⟩) false [],
          TransferOp.rsync ⟨"/c/packs"⟩ ⟨"/d/live-backup"⟩
            (some ⟨"/d/prev"⟩) false [],
          TransferOp.rsync ⟨"/c"⟩ ⟨"/d/live-backup"⟩ (some ⟨"/d/prev"⟩) true
            ["--exclude", "loose", "--exclude", "packs.idx",
             "--exclude", "packs"]],
         .ok ()) := by
  rw [C1_backup_container_order ⟨⟨"/c"⟩, "loose", "packs", ⟨"/c/packs.idx"⟩⟩
    ⟨"/d/live-backup"⟩ (some ⟨"/d/prev"⟩) ⟨"/tmp/t"⟩ (fun _ => true) (fun _ => rfl)]
  rfl

/-- The `.ok` outcome of `BackupManager.__init__` under benign oracles:
parsable destination, non-negative retention, accessible remote and
resolvable executables, with the destination root existing or creatable. -/
theorem backupManagerInit_ok (dest : String) (keep : Int)
    (exes : Option (List (String × String))) (exeFound : String → Bool)
    (pathExists mkdirOk : Bool) (remote : Option String) (p : PathM)
    (hsp : split_remote_and_path dest = .ok (remote, p)) (hpos : ¬ keep < 0)
    (hexe : ∀ s, exeFound s = true)
    (hor : pathExists = true ∨ mkdirOk = true) :
    ∃ mgr, (backupManagerInit dest keep exes true exeFound pathExists mkdirOk).2
      = .ok mgr := by
  have hfind : ∀ l : List (String × String),
      l.find? (fun kv => !exeFound kv.2) = none := by
    intro l
    apply List.find?_eq_none.mpr
    intro x hx
    simp [hexe x.2]
  cases pathExists with
  | true =>
    refine ⟨⟨dest, keep, remote, p,
      if ((exes.getD []).lookup "rsync").isSome then exes.getD []
      else exes.getD [] ++ [("rsync", "rsync")]⟩, ?_⟩
    simp [backupManagerInit, hsp, hfind, hpos]
  | false =>
    have hmk : mkdirOk = true := by tauto
    subst hmk
    refine ⟨⟨dest, keep, remote, p,
      if ((exes.getD []).lookup "rsync").isSome then exes.getD []
      else exes.getD [] ++ [("rsync", "rsync")]⟩, ?_⟩
    simp [backupManagerInit, hsp, hfind, hpos]

/-- C6: a negative retention count makes construction fail with no command
dispatched at all (in particular before any destination-visible side
effect); a non-negative count together with a parsable destination string,
an accessible remote, resolvable executables and an existing-or-creatable
destination root makes construction succeed. -/
theorem C6_backupManagerInit (dest : String) (keep : Int)
    (exes : Option (List (String × String)))
    (remoteAccessible : Bool) (exeFound : String → Bool)
    (pathExists mkdirOk : Bool) :
    (keep < 0 →
      (backupManagerInit dest keep exes remoteAccessible exeFound
          pathExists mkdirOk).1 = []
        ∧ ∃ e, (backupManagerInit dest keep exes remoteAccessible exeFound
            pathExists mkdirOk).2 = .error e) ∧
    (0 ≤ keep → (∃ rp, split_remote_and_path dest = .ok rp) →
      remoteAccessible = true → (∀ s, exeFound s = true) →
      (pathExists = true ∨ mkdirOk = true) →
      ∃ mgr, (backupManagerInit dest keep exes remoteAccessible exeFound
          pathExists mkdirOk).2 = .ok mgr) := by
  constructor
  · intro hneg
    rcases hsp : split_remote_and_path dest with e | ⟨remote, p⟩
    · exact ⟨by simp [backupManagerInit, hsp], ⟨e, by simp [backupManagerInit, hsp]⟩⟩
    · constructor
      · simp [backupManagerInit, hsp, hneg]
      · exact ⟨"Input validation failed: keep variable cannot be negative!",
          by simp [backupManagerInit, hsp, hneg]⟩
  · intro hpos hex hra hexe hor
    obtain ⟨⟨remote, p⟩, hsp⟩ := hex
    subst hra
    exact backupManagerInit_ok dest keep exes exeFound pathExists mkdirOk
      remote p hsp (by omega) hexe hor

/-- Witness for C6: construction with `keep = -1` fails with an empty
command trace; construction with `keep = 0` and benign oracles succeeds. -/
theorem C6_backupManagerInit_witness :
    ((backupManagerInit "d" (-1) none true (fun _ => true) true true).1 = []
      ∧ ∃ e, (backupManagerInit "d" (-1) none true
          (fun _ => true) true true).2 = .error e) ∧
    ∃ mgr, (backupManagerInit "d" 0 none true (fun _ => true) true true).2
      = .ok mgr :=
  ⟨(C6_backupManagerInit "d" (-1) none true (fun _ => true) true true).1
     (by decide),
   (C6_backupManagerInit "d" 0 none true (fun _ => true) true true).2
     (by decide) ⟨(none, PathM.mk "d"), by rfl⟩ rfl (fun _ => rfl) (Or.inl rfl)⟩

/-- C7: when a link-reference is supplied, the `--link-dest` argument
carries the reference resolved to an absolute path when no remote host is
configured, and the unresolved reference verbatim when one is. -/
theorem C7_call_rsync_link_dest (exes : List (String × String))
    (remote : Option String) (cwd src dst ld : PathM) (sts dts : Bool)
    (ea : List String) (args : List String)
    (h : call_rsync_args exes remote cwd src dst (some ld) sts dts ea
      = some args) :
    (remoteTruthy remote = false →
      ("--link-dest=" ++ (PathM.resolve cwd ld).str) ∈ args ∧
      (cwd.isAbsolute = true → (PathM.resolve cwd ld).isAbsolute = true)) ∧
    (remoteTruthy remote = true → ("--link-dest=" ++ ld.str) ∈ args) := by
  unfold call_rsync_args at h
  rcases hlk : exes.lookup "rsync" with _ | rsyncExe
  · rw [hlk] at h
    cases h
  · rw [hlk] at h
    simp only [Option.some.injEq] at h
    subst h
    constructor
    · intro hrt
      refine ⟨?_, fun hc => resolve_isAbsolute cwd ld hc⟩
      simp [hrt, List.mem_append]
    · intro hrt
      simp [hrt, List.mem_append]

/-- Witness for C7: a local invocation resolves the relative link-reference
against the working directory (yielding an absolute path); a remote
invocation passes it through verbatim. -/
theorem C7_call_rsync_link_dest_witness :
    ("--link-dest=" ++ (PathM.resolve ⟨"/w"⟩ ⟨"rel"⟩).str)
      ∈ ["rsync", "-azh", "-vv", "--no-whole-file", "--link-dest=/w/rel",
         "/s", "/d"] ∧
    (PathM.resolve ⟨"/w"⟩ ⟨"rel"⟩).isAbsolute = true ∧
    ("--link-dest=" ++ (PathM.mk "rel").str)
      ∈ ["rsync", "-azh", "-vv", "--no-whole-file", "--link-dest=rel",
         "/s", "h:/d"] := by
  have h1 := C7_call_rsync_link_dest [("rsync", "rsync")] none ⟨"/w"⟩ ⟨"/s"⟩
    ⟨"/d"⟩ ⟨"rel"⟩ false false []
    ["rsync", "-azh", "-vv", "--no-whole-file", "--link-dest=/w/rel", "/s", "/d"]
    (by rfl)
  have h2 := C7_call_rsync_link_dest [("rsync", "rsync")] (some "h") ⟨"/w"⟩
    ⟨"/s"⟩ ⟨"/d"⟩ ⟨"rel"⟩ false false []
    ["rsync", "-azh", "-vv", "--no-whole-file", "--link-dest=rel", "/s", "h:/d"]
    (by rfl)
  exact ⟨(h1.1 rfl).1, (h1.1 rfl).2 rfl, h2.2 rfl⟩

/-- Shape of `BackupManager.__init__` outcomes: construction either fails,
or returns a manager whose executable registry is the input registry with a
`rsync` entry inserted when absent (lines 66-68). -/
theorem backupManagerInit_exes (dest : String) (keep : Int)
    (exes : Option (List (String × String)))
    (remoteAccessible : Bool) (exeFound : String → Bool)
    (pathExists mkdirOk : Bool) :
    (∃ e, (backupManagerInit dest keep exes remoteAccessible exeFound
        pathExists mkdirOk).2 = .error e) ∨
    (∃ remote p, (backupManagerInit dest keep exes remoteAccessible exeFound
        pathExists mkdirOk).2 = .ok ⟨dest, keep, remote, p,
          if ((exes.getD []).lookup "rsync").isSome then exes.getD []
          else exes.getD [] ++ [("rsync", "rsync")]⟩) := by
  unfold backupManagerInit
  rcases hsp : split_remote_and_path dest with e | ⟨remote, p⟩
  · simp only [hsp]
    exact Or.inl ⟨e, rfl⟩
  · simp only [hsp]
    repeat' split
    all_goals
      first
      | exact Or.inl ⟨_, rfl⟩
      | exact Or.inr ⟨remote, p, rfl⟩

/-- C10: every successfully constructed `BackupManager` has a `rsync` entry
in its executable registry (the constructor inserts one when absent), so
the assertion at the top of `call_rsync` cannot fail on a constructed
instance: `call_rsync_args` never returns `none` for its registry. -/
theorem C10_constructed_manager_has_rsync (dest : String) (keep : Int)
    (exes : Option (List (String × String)))
    (remoteAccessible : Bool) (exeFound : String → Bool)
    (pathExists mkdirOk : Bool) (tr : List InitCmd) (mgr : BackupManager)
    (h : backupManagerInit dest keep exes remoteAccessible exeFound
        pathExists mkdirOk = (tr, .ok mgr)) :
    (mgr.exes.lookup "rsync").isSome = true ∧
    ∀ remote cwd src dst link_dest sts dts ea,
      call_rsync_args mgr.exes remote cwd src dst link_dest sts dts ea
        ≠ none := by
  have h2 : (backupManagerInit dest keep exes remoteAccessible exeFound
      pathExists mkdirOk).2 = .ok mgr := by rw [h]
  have hx : (mgr.exes.lookup "rsync").isSome = true := by
    rcases backupManagerInit_exes dest keep exes remoteAccessible exeFound
        pathExists mkdirOk with ⟨e, he⟩ | ⟨remote, p, hok⟩
    · rw [h2] at he
      simp at he
    · rw [h2] at hok
      rw [Except.ok.inj hok]
      exact lookup_rsync_after_insert _
  refine ⟨hx, ?_⟩
  intro remote cwd src dst link_dest sts dts ea
  rcases hlk : mgr.exes.lookup "rsync" with _ | v
  · rw [hlk] at hx
    simp at hx
  · simp [call_rsync_args, hlk]

/-- Witness for C10 at a concrete successful construction. -/
theorem C10_constructed_manager_has_rsync_witness :
    (((⟨"d", 0, none, PathM.mk "d", [("rsync", "rsync")]⟩ :
        BackupManager).exes.lookup "rsync").isSome = true) ∧
    (∀ remote cwd src dst link_dest sts dts ea,
      call_rsync_args
          (⟨"d", 0, none, PathM.mk "d", [("rsync", "rsync")]⟩ :
            BackupManager).exes
          remote cwd src dst link_dest sts dts ea ≠ none) :=
  C10_constructed_manager_has_rsync "d" 0 none true (fun _ => true) true true
    [InitCmd.checkPathExists "d"]
    ⟨"d", 0, none, PathM.mk "d", [("rsync", "rsync")]⟩ (by rfl)

end DiskObjectstore
